import Mathlib

/-!
Shallow embedding of the snapshot/subvolume engine (libbcachefs subvolume code)
and verification of the specification's claims about it.

The B-tree stores are embedded as association lists `List (Nat × row)` in key
order; machine integers (`u32`/`u64`) are embedded as `Nat` (no arithmetic in
the engine overflows: ids are only compared, decremented while non-zero, and
copied).  Fallible operations return `Except Err _`.  Transactional updates
are embedded as explicit state passing; an error return means the transaction
aborts with no visible effect.
-/

namespace Subvolume

/-- Error codes surfaced by the engine (negative errnos in the source). -/
inductive Err where
  | ENOENT | EIOerror | EINVAL | ENOSPC | ENOMEM | BUG
  deriving DecidableEq, Repr

/-- Constant `U32_MAX`. -/
def U32MAX : Nat := 4294967295

/-- Embedding of `struct bpos`: inode, offset, snapshot. -/
structure Bpos where
  inode : Nat
  offset : Nat
  snapshot : Nat
  deriving DecidableEq, Repr

/-- Macro `POS(inode, offset)` — snapshot component zero. -/
def POS (inode offset : Nat) : Bpos := ⟨inode, offset, 0⟩

/-- Constant `POS_MIN`. -/
def POS_MIN : Bpos := POS 0 0

/-- Embedding of `bkey_cmp`: in this era of the source, key comparison covers only the
`inode` and `offset` fields of `bpos`, not the `snapshot` field. -/
def bkeyCmp (a b : Bpos) : Int :=
  if a.inode < b.inode then -1
  else if b.inode < a.inode then 1
  else if a.offset < b.offset then -1
  else if b.offset < a.offset then 1
  else 0

/-- Embedding of `struct bch_snapshot` plus its key's flag accessors: `BCH_SNAPSHOT_DELETED`
and `BCH_SNAPSHOT_SUBVOL` are bits of `flags`, embedded as `Bool` fields. -/
structure SnapRow where
  deleted : Bool
  isSubvol : Bool
  parent : Nat
  child0 : Nat
  child1 : Nat
  subvol : Nat
  deriving DecidableEq, Repr

/-- Embedding of `struct bch_subvolume` with flags `BCH_SUBVOLUME_RO` / `BCH_SUBVOLUME_SNAP`. -/
structure SubvolRow where
  ro : Bool
  isSnap : Bool
  snapshot : Nat
  inode : Nat
  deriving DecidableEq, Repr

/-! ### Association-list btree stores -/

/-- Lookup of the row at an exact key (`bch2_btree_iter_peek_slot` plus the
key-type test). -/
def lookupA {α : Type} : List (Nat × α) → Nat → Option α
  | [], _ => none
  | p :: rest, id => if p.1 = id then some p.2 else lookupA rest id

/-- Write the row at a key, inserting it if absent (`bch2_trans_update`). -/
def updateA {α : Type} : List (Nat × α) → Nat → α → List (Nat × α)
  | [], id, v => [(id, v)]
  | p :: rest, id, v => if p.1 = id then (id, v) :: rest else p :: updateA rest id v

/-- Delete the row at a key (`bch2_btree_delete_at` / writing a tombstone). -/
def eraseA {α : Type} : List (Nat × α) → Nat → List (Nat × α)
  | [], _ => []
  | p :: rest, id => if p.1 = id then rest else p :: eraseA rest id

theorem lookupA_updateA_self {α : Type} (l : List (Nat × α)) (id : Nat) (v : α) :
    lookupA (updateA l id v) id = some v := by
  induction l with
  | nil => simp [updateA, lookupA]
  | cons p rest ih =>
    by_cases h : p.1 = id
    · simp [updateA, h, lookupA]
    · simp [updateA, h, lookupA, ih]

theorem lookupA_updateA_other {α : Type} (l : List (Nat × α)) (id j : Nat) (v : α)
    (hne : j ≠ id) : lookupA (updateA l id v) j = lookupA l j := by
  have hne' : id ≠ j := fun h => hne h.symm
  induction l with
  | nil => simp [updateA, lookupA, hne']
  | cons p rest ih =>
    by_cases h : p.1 = id
    · have hpj : p.1 ≠ j := by rw [h]; exact hne'
      simp [updateA, h, lookupA, hne', hpj]
    · by_cases h2 : p.1 = j
      · simp [updateA, h, lookupA, h2, hne]
      · simp [updateA, h, lookupA, h2, ih]

theorem lookupA_mem_keys {α : Type} {l : List (Nat × α)} {id : Nat} {v : α}
    (h : lookupA l id = some v) : id ∈ l.map Prod.fst := by
  induction l with
  | nil => simp [lookupA] at h
  | cons p rest ih =>
    by_cases hp : p.1 = id
    · simp [hp]
    · simp only [lookupA, hp, if_false] at h
      simp [ih h]

theorem lookupA_isSome_of_mem {α : Type} {l : List (Nat × α)} {id : Nat}
    (h : id ∈ l.map Prod.fst) : (lookupA l id).isSome := by
  induction l with
  | nil => simp at h
  | cons p rest ih =>
    by_cases hp : p.1 = id
    · simp [lookupA, hp]
    · simp only [List.map_cons, List.mem_cons] at h
      rcases h with h | h
      · exact absurd h.symm hp
      · simp [lookupA, hp, ih h]

/-! ### Row validator (`bch2_snapshot_invalid`) -/

/-- Size in bytes of `struct bch_snapshot` (six little-endian `u32`s). -/
def sizeofSnapshot : Nat := 24

/-- A candidate snapshot key as handed to the validator: its position, the
byte size of its value, and the decoded value. -/
structure SnapKey where
  pos : Bpos
  valBytes : Nat
  v : SnapRow
  deriving DecidableEq, Repr

/-- Embedding of `bch2_snapshot_invalid`: returns the rejection reason, or `none` when the
key is accepted. -/
def bch2_snapshot_invalid (k : SnapKey) : Option String :=
  if 0 < bkeyCmp k.pos (POS 0 U32MAX) ∨ bkeyCmp k.pos (POS 0 1) < 0 then
    some "bad pos"
  else if k.valBytes ≠ sizeofSnapshot then
    some "bad val size"
  else if k.v.parent ≠ 0 ∧ k.v.parent ≤ k.pos.offset then
    some "bad parent node"
  else if k.v.child0 < k.v.child1 then
    some "children not normalized"
  else if k.v.child0 ≠ 0 ∧ k.v.child0 = k.v.child1 then
    some "duplicate child nodes"
  else if k.pos.offset ≤ k.v.child0 ∨ k.pos.offset ≤ k.v.child1 then
    some "bad child node"
  else
    none

/-- The position test of the validator, spelled without `bkeyCmp`. -/
theorem badPos_iff (p : Bpos) :
    (0 < bkeyCmp p (POS 0 U32MAX) ∨ bkeyCmp p (POS 0 1) < 0) ↔
      ¬(p.inode = 0 ∧ 1 ≤ p.offset ∧ p.offset ≤ U32MAX) := by
  rcases p with ⟨i, o, s⟩
  simp only [bkeyCmp, POS]
  split_ifs <;> simp_all <;> omega

/-- A snapshot key accepted by the validator although its parent id is larger
than its own id: `pos = (0, 5)`, `parent = 10`. -/
def exC1 : SnapKey :=
  { pos := POS 0 5, valBytes := sizeofSnapshot,
    v := { deleted := false, isSubvol := false, parent := 10,
           child0 := 0, child1 := 0, subvol := 0 } }

/-- C1 as stated is false: this key is accepted by `bch2_snapshot_invalid`,
its parent is non-zero, and its parent id is not less than its own id. -/
theorem C1_counterexample :
    bch2_snapshot_invalid exC1 = none ∧ exC1.v.parent ≠ 0 ∧
      ¬(exC1.v.parent < exC1.pos.offset) := by
  refine ⟨?_, ?_, ?_⟩ <;> decide

/-- C1 amended: the tree grows toward smaller ids.  Every snapshot row
accepted by the validator has its parent id, when non-zero, strictly greater
than its own id, and each `children[i]` strictly less than its own id. -/
theorem C1_accepted_parent_gt_children_lt (k : SnapKey)
    (h : bch2_snapshot_invalid k = none) :
    (k.v.parent ≠ 0 → k.pos.offset < k.v.parent) ∧
      k.v.child0 < k.pos.offset ∧ k.v.child1 < k.pos.offset := by
  unfold bch2_snapshot_invalid at h
  split_ifs at h with h1 h2 h3 h4 h5 h6
  refine ⟨fun hp => ?_, ?_, ?_⟩
  · rcases Nat.lt_or_ge k.pos.offset k.v.parent with hlt | hge
    · exact hlt
    · exact absurd ⟨hp, hge⟩ h3
  · exact Nat.lt_of_not_le fun hc => h6 (Or.inl hc)
  · exact Nat.lt_of_not_le fun hc => h6 (Or.inr hc)

/-- Witness for the amended C1 at a concrete accepted key. -/
theorem C1_witness :
    (exC1.v.parent ≠ 0 → exC1.pos.offset < exC1.v.parent) ∧
      exC1.v.child0 < exC1.pos.offset ∧ exC1.v.child1 < exC1.pos.offset :=
  C1_accepted_parent_gt_children_lt exC1 (by decide)

/-- A snapshot key at offset `U32_MAX` with an otherwise well-formed value. -/
def exC3 : SnapKey :=
  { pos := POS 0 U32MAX, valBytes := sizeofSnapshot,
    v := { deleted := false, isSubvol := false, parent := 0,
           child0 := 0, child1 := 0, subvol := 0 } }

/-- C3 as stated is false: a key at offset `U32_MAX` is accepted (the code
rejects positions strictly greater than `POS(0, U32_MAX)`, so the admitted
offset interval is the closed `[1, U32_MAX]`, not `[1, U32_MAX)`). -/
theorem C3_counterexample :
    exC3.pos.offset = U32MAX ∧ bch2_snapshot_invalid exC3 = none := by
  refine ⟨rfl, ?_⟩; decide

/-- C3 amended: the validator fails with the position error exactly when the
key's position falls outside `[(0,1), (0,U32_MAX)]`, i.e. its inode is
non-zero or its offset lies outside the closed interval `[1, U32_MAX]`. -/
theorem C3_bad_pos_iff (k : SnapKey) :
    bch2_snapshot_invalid k = some "bad pos" ↔
      ¬(k.pos.inode = 0 ∧ 1 ≤ k.pos.offset ∧ k.pos.offset ≤ U32MAX) := by
  rw [← badPos_iff k.pos]
  unfold bch2_snapshot_invalid
  split_ifs with h1 h2 h3 h4 h5 h6 <;> simp_all

/-! ### Equivalence cache (`struct snapshot_t`, `bch2_mark_snapshot`) -/

/-- Embedding of `struct snapshot_t`: the in-core cache slot for one snapshot id. -/
structure SnapshotT where
  parent : Nat
  child0 : Nat
  child1 : Nat
  subvol : Nat
  equiv : Nat
  deriving DecidableEq, Repr

/-- The value of a key handed to `bch2_mark_snapshot`: a decoded snapshot row,
or any other key type (including a deletion/whiteout). -/
inductive MarkKey where
  | snapshot (s : SnapRow)
  | other
  deriving DecidableEq, Repr

/-- Embedding of `bch2_mark_snapshot`.  The genradix is embedded as a total map from the
snapshot id to its slot (the source indexes the radix by `U32_MAX - id`, a
bijective mirror; a fresh slot is zero-initialized, which the total map
models by the caller's choice of initial slots).  The `ENOMEM` branch of
`genradix_ptr_alloc` is an allocator failure (out of scope); a successful call
is the returned map. -/
def bch2_mark_snapshot (cache : Nat → SnapshotT) (pos : Nat) (newk : MarkKey) :
    Nat → SnapshotT :=
  fun j =>
    if j = pos then
      match newk with
      | .snapshot s =>
        { cache pos with
          parent := s.parent, child0 := s.child0, child1 := s.child1,
          subvol := if s.isSubvol then s.subvol else 0 }
      | .other =>
        { cache pos with parent := 0, child0 := 0, child1 := 0, subvol := 0 }
    else cache j

/-- C10: after `bch2_mark_snapshot`, the slot for the marked id has a non-zero
`subvol` only when the new key is a snapshot row with `IS_SUBVOL` set (and then
it equals the row's `subvol`); for any other key type the slot's `parent`,
`children` and `subvol` are all reset to 0. -/
theorem C10_mark_snapshot_subvol (cache : Nat → SnapshotT) (pos : Nat)
    (newk : MarkKey) :
    ((bch2_mark_snapshot cache pos newk pos).subvol ≠ 0 →
      ∃ s, newk = .snapshot s ∧ s.isSubvol = true ∧
        (bch2_mark_snapshot cache pos newk pos).subvol = s.subvol) ∧
    (∀ s, newk = .snapshot s → s.isSubvol = true →
      (bch2_mark_snapshot cache pos newk pos).subvol = s.subvol) ∧
    (newk = .other →
      (bch2_mark_snapshot cache pos newk pos).parent = 0 ∧
      (bch2_mark_snapshot cache pos newk pos).child0 = 0 ∧
      (bch2_mark_snapshot cache pos newk pos).child1 = 0 ∧
      (bch2_mark_snapshot cache pos newk pos).subvol = 0) := by
  refine ⟨?_, ?_, ?_⟩
  · intro hnz
    cases newk with
    | snapshot s =>
      refine ⟨s, rfl, ?_, ?_⟩ <;>
      · simp only [bch2_mark_snapshot, if_pos rfl] at hnz ⊢
        by_cases hs : s.isSubvol = true <;> simp_all
    | other => simp [bch2_mark_snapshot] at hnz
  · intro s hk hs
    subst hk
    simp [bch2_mark_snapshot, hs]
  · intro hk
    subst hk
    simp [bch2_mark_snapshot]

/-- Witness for C10: a deletion key resets all fields of the slot for id 7. -/
theorem C10_witness :
    (bch2_mark_snapshot (fun _ => ⟨3, 4, 5, 6, 7⟩) 7 .other 7).parent = 0 ∧
    (bch2_mark_snapshot (fun _ => ⟨3, 4, 5, 6, 7⟩) 7 .other 7).child0 = 0 ∧
    (bch2_mark_snapshot (fun _ => ⟨3, 4, 5, 6, 7⟩) 7 .other 7).child1 = 0 ∧
    (bch2_mark_snapshot (fun _ => ⟨3, 4, 5, 6, 7⟩) 7 .other 7).subvol = 0 :=
  (C10_mark_snapshot_subvol (fun _ => ⟨3, 4, 5, 6, 7⟩) 7 .other).2.2 rfl

/-! ### Snapshot node store: mark-deleted and physical delete -/

/-- Embedding of `bch2_snapshot_node_set_deleted`: read the row with intent, no-op when
already `DELETED`, else set the flag; `INCONSISTENT`/`-ENOENT` when absent. -/
def bch2_snapshot_node_set_deleted (snaps : List (Nat × SnapRow)) (id : Nat) :
    Except Err (List (Nat × SnapRow)) :=
  match lookupA snaps id with
  | none => .error .ENOENT
  | some row =>
    if row.deleted then .ok snaps
    else .ok (updateA snaps id { row with deleted := true })

/-- The swap re-normalizing a parent's children after one was cleared. -/
def childSwapNorm (p : SnapRow) : SnapRow :=
  if p.child0 < p.child1 then { p with child0 := p.child1, child1 := p.child0 }
  else p

/-- Embedding of `bch2_snapshot_node_delete`: physically remove a `DELETED` row, clearing
the back-pointer in the parent when the parent row is present.  The
`BUG_ON(!BCH_SNAPSHOT_DELETED(s.v))` is embedded as a `BUG` error branch. -/
def bch2_snapshot_node_delete (snaps : List (Nat × SnapRow)) (id : Nat) :
    Except Err (List (Nat × SnapRow)) :=
  match lookupA snaps id with
  | none => .error .ENOENT
  | some s =>
    if s.deleted = false then .error .BUG
    else if s.parent ≠ 0 then
      match lookupA snaps s.parent with
      | none => .error .ENOENT
      | some p =>
        let p1 := if p.child0 = id then { p with child0 := 0 }
                  else if p.child1 = id then { p with child1 := 0 }
                  else p
        .ok (eraseA (updateA snaps s.parent (childSwapNorm p1)) id)
    else .ok (eraseA snaps id)

theorem lookupA_eq_none_of_not_mem {α : Type} {l : List (Nat × α)} {id : Nat}
    (h : id ∉ l.map Prod.fst) : lookupA l id = none := by
  cases hl : lookupA l id with
  | none => rfl
  | some v => exact absurd (lookupA_mem_keys hl) h

theorem map_fst_updateA_of_mem {α : Type} (l : List (Nat × α)) (id : Nat) (v : α)
    (h : id ∈ l.map Prod.fst) : (updateA l id v).map Prod.fst = l.map Prod.fst := by
  induction l with
  | nil => simp at h
  | cons p rest ih =>
    by_cases hp : p.1 = id
    · simp [updateA, hp]
    · simp only [List.map_cons, List.mem_cons] at h
      rcases h with h | h
      · exact absurd h.symm hp
      · simp [updateA, hp, ih h]

theorem lookupA_eraseA_self {α : Type} (l : List (Nat × α)) (id : Nat)
    (h : (l.map Prod.fst).Nodup) : lookupA (eraseA l id) id = none := by
  induction l with
  | nil => rfl
  | cons p rest ih =>
    simp only [List.map_cons, List.nodup_cons] at h
    by_cases hp : p.1 = id
    · simp only [eraseA, hp, if_pos rfl]
      exact lookupA_eq_none_of_not_mem (hp ▸ h.1)
    · simp [eraseA, hp, lookupA, ih h.2]

theorem lookupA_eraseA_other {α : Type} (l : List (Nat × α)) (id j : Nat)
    (hne : j ≠ id) : lookupA (eraseA l id) j = lookupA l j := by
  have hne' : id ≠ j := fun hh => hne hh.symm
  induction l with
  | nil => rfl
  | cons p rest ih =>
    by_cases hp : p.1 = id
    · have hpj : p.1 ≠ j := fun hh => hne (hh ▸ hp.symm).symm
      simp [eraseA, hp, lookupA, hpj, hne']
    · by_cases h2 : p.1 = j
      · simp [eraseA, hp, lookupA, h2, hne]
      · simp [eraseA, hp, lookupA, h2, ih]

/-- A `DELETED` row whose parent (id 9) has no row in the store. -/
def exC2 : List (Nat × SnapRow) :=
  [(5, { deleted := true, isSubvol := false, parent := 9,
         child0 := 0, child1 := 0, subvol := 0 })]

/-- C2 as stated is false: deleting the `DELETED` row 5 whose non-zero parent
row is missing does not merely log — it fails with `ENOENT` and therefore
does not delete the row. -/
theorem C2_counterexample :
    bch2_snapshot_node_delete exC2 5 = .error .ENOENT := rfl

/-- C2 amended: for a `DELETED` row with a non-zero parent, a *missing parent
row* aborts the operation with `ENOENT` (nothing is deleted), while a parent
that is present but carries *no child back-pointer* equal to the deleted id is
only logged: the operation succeeds, rewrites the parent unchanged apart from
the re-normalizing swap, and deletes the row itself. -/
theorem C2_node_delete_parent_cases (snaps : List (Nat × SnapRow)) (id : Nat)
    (s : SnapRow) (hs : lookupA snaps id = some s) (hdel : s.deleted = true)
    (hp : s.parent ≠ 0) (hpid : s.parent ≠ id)
    (hnodup : (snaps.map Prod.fst).Nodup) :
    (lookupA snaps s.parent = none →
      bch2_snapshot_node_delete snaps id = .error .ENOENT) ∧
    (∀ p, lookupA snaps s.parent = some p → p.child0 ≠ id → p.child1 ≠ id →
      ∃ snaps', bch2_snapshot_node_delete snaps id = .ok snaps' ∧
        lookupA snaps' id = none ∧
        lookupA snaps' s.parent = some (childSwapNorm p)) := by
  constructor
  · intro hnone
    simp [bch2_snapshot_node_delete, hs, hdel, hp, hnone]
  · intro p hpar hc0 hc1
    refine ⟨eraseA (updateA snaps s.parent (childSwapNorm p)) id,
      ?_, ?_, ?_⟩
    · simp [bch2_snapshot_node_delete, hs, hdel, hp, hpar, hc0, hc1]
    · apply lookupA_eraseA_self
      rw [map_fst_updateA_of_mem _ _ _ (lookupA_mem_keys hpar)]
      exact hnodup
    · rw [lookupA_eraseA_other _ _ _ hpid, lookupA_updateA_self]

/-- A `DELETED` row (id 5) whose parent row (id 9) exists but carries no child
back-pointer equal to 5. -/
def s5w : SnapRow :=
  { deleted := true, isSubvol := false, parent := 9,
    child0 := 0, child1 := 0, subvol := 0 }

def p9w : SnapRow :=
  { deleted := false, isSubvol := false, parent := 0,
    child0 := 7, child1 := 0, subvol := 0 }

def exC2w : List (Nat × SnapRow) := [(5, s5w), (9, p9w)]

/-- Witness for the amended C2 at a concrete store. -/
theorem C2_witness :
    (lookupA exC2w s5w.parent = none →
      bch2_snapshot_node_delete exC2w 5 = .error .ENOENT) ∧
    (∀ p, lookupA exC2w s5w.parent = some p → p.child0 ≠ 5 → p.child1 ≠ 5 →
      ∃ snaps', bch2_snapshot_node_delete exC2w 5 = .ok snaps' ∧
        lookupA snaps' 5 = none ∧
        lookupA snaps' s5w.parent = some (childSwapNorm p)) :=
  C2_node_delete_parent_cases exC2w 5 s5w (by decide) (by decide) (by decide)
    (by decide) (by decide)

/-! ### Subvolume delete (`bch2_subvolume_delete`) -/

/-- Embedding of `bch2_subvolume_delete`: read the subvolume row (cached+intent); a missing
row is an inconsistency returning `-EIO`; a `deleting_snapshot` argument that
is non-negative and disagrees with the row's `BCH_SUBVOLUME_SNAP` flag returns
`-ENOENT`; otherwise write a tombstone over the row and mark its snapshot
`DELETED`.  In the source the return value of
`bch2_snapshot_node_set_deleted` is immediately overwritten by the
commit-hook allocation check, so its failure does not abort the call. -/
def bch2_subvolume_delete (subvols : List (Nat × SubvolRow))
    (snaps : List (Nat × SnapRow)) (subvolid : Nat) (deleting_snapshot : Int) :
    Except Err (List (Nat × SubvolRow) × List (Nat × SnapRow)) :=
  match lookupA subvols subvolid with
  | none => .error .EIOerror
  | some sv =>
    if 0 ≤ deleting_snapshot ∧
        deleting_snapshot ≠ (if sv.isSnap then 1 else 0) then
      .error .ENOENT
    else
      let subvols' := eraseA subvols subvolid
      let snaps' := match bch2_snapshot_node_set_deleted snaps sv.snapshot with
                    | .ok s => s
                    | .error _ => snaps
      .ok (subvols', snaps')

/-- C9 as stated is false: `bch2_subvolume_delete` on an absent subvolume row
surfaces `EIO`, which is not the `ENOENT` (NOT_FOUND) code. -/
theorem C9_counterexample :
    bch2_subvolume_delete [] [] 7 (-1) = .error .EIOerror ∧ Err.EIOerror ≠ Err.ENOENT :=
  ⟨rfl, by decide⟩

/-- C9 amended: `bch2_snapshot_node_set_deleted` on an absent snapshot row
surfaces `ENOENT`, but `bch2_subvolume_delete` on an absent subvolume row
surfaces `EIO`, a different code from NOT_FOUND. -/
theorem C9_missing_row_codes (subvols : List (Nat × SubvolRow))
    (snaps : List (Nat × SnapRow)) (i j : Nat) (ds : Int)
    (h1 : lookupA snaps i = none) (h2 : lookupA subvols j = none) :
    bch2_snapshot_node_set_deleted snaps i = .error .ENOENT ∧
    bch2_subvolume_delete subvols snaps j ds = .error .EIOerror ∧
    Err.EIOerror ≠ Err.ENOENT := by
  refine ⟨?_, ?_, by decide⟩
  · simp [bch2_snapshot_node_set_deleted, h1]
  · simp [bch2_subvolume_delete, h2]

/-- Witness for the amended C9 on empty stores. -/
theorem C9_witness :
    bch2_snapshot_node_set_deleted ([] : List (Nat × SnapRow)) 3 =
      .error .ENOENT ∧
    bch2_subvolume_delete ([] : List (Nat × SubvolRow)) [] 4 0 =
      .error .EIOerror ∧
    Err.EIOerror ≠ Err.ENOENT :=
  C9_missing_row_codes [] [] 3 4 0 rfl rfl

/-! ### Consistency checker (`bch2_snapshot_check`, `bch2_fs_snapshots_check`) -/

/-- The parent leg of `bch2_snapshot_check`: the parent row must exist and
list the row's id among its children. -/
def checkParentBack (snaps : List (Nat × SnapRow)) (id par : Nat) :
    Except Err Unit :=
  match lookupA snaps par with
  | none => .error .ENOENT
  | some v => if v.child0 ≠ id ∧ v.child1 ≠ id then .error .EINVAL else .ok ()

/-- One child leg of `bch2_snapshot_check`: the child row must exist and name
the row's id as its parent. -/
def checkOneChild (snaps : List (Nat × SnapRow)) (id c : Nat) :
    Except Err Unit :=
  match lookupA snaps c with
  | none => .error .ENOENT
  | some v => if v.parent ≠ id then .error .EINVAL else .ok ()

/-- The children loop of `bch2_snapshot_check`:
`for (i = 0; i < 2 && s.v->children[i]; i++)` stops at the first zero child. -/
def checkChildren (snaps : List (Nat × SnapRow)) (id : Nat) (s : SnapRow) :
    Except Err Unit :=
  if s.child0 = 0 then .ok ()
  else
    match checkOneChild snaps id s.child0 with
    | .error e => .error e
    | .ok _ => if s.child1 = 0 then .ok () else checkOneChild snaps id s.child1

/-- Embedding of `bch2_snapshot_check` for one snapshot row. -/
def bch2_snapshot_check (snaps : List (Nat × SnapRow))
    (subvols : List (Nat × SubvolRow)) (id : Nat) (s : SnapRow) :
    Except Err Unit :=
  match lookupA subvols s.subvol with
  | none => .error .ENOENT
  | some subvol =>
    if s.isSubvol ≠ (subvol.snapshot == id) then .error .EINVAL
    else
      match (if s.parent ≠ 0 then checkParentBack snaps id s.parent
             else .ok ()) with
      | .error e => .error e
      | .ok _ => checkChildren snaps id s

/-- First pass of `bch2_fs_snapshots_check`: any failing row breaks the walk
and its error is returned. -/
def checkSnapsLoop (snaps : List (Nat × SnapRow))
    (subvols : List (Nat × SubvolRow)) : List (Nat × SnapRow) → Except Err Unit
  | [] => .ok ()
  | (id, s) :: rest =>
    match bch2_snapshot_check snaps subvols id s with
    | .error e => .error e
    | .ok _ => checkSnapsLoop snaps subvols rest

/-- Second pass of `bch2_fs_snapshots_check`, with the `ret` variable threaded
exactly as in the source: a dangling `subvolume.snapshot` stores `-ENOENT`
into `ret` and merely logs (no break), and the next iteration overwrites
`ret` with its own lookup result, so only the *last* row's result survives to
the return. -/
def checkSubvolsLoop (snaps : List (Nat × SnapRow)) :
    List (Nat × SubvolRow) → Except Err Unit → Except Err Unit
  | [], ret => ret
  | (_, sv) :: rest, _ =>
    checkSubvolsLoop snaps rest
      (match lookupA snaps sv.snapshot with
       | some _ => .ok ()
       | none => .error .ENOENT)

/-- Embedding of `bch2_fs_snapshots_check`. -/
def bch2_fs_snapshots_check (snaps : List (Nat × SnapRow))
    (subvols : List (Nat × SubvolRow)) : Except Err Unit :=
  match checkSnapsLoop snaps subvols snaps with
  | .error e => .error e
  | .ok _ => checkSubvolsLoop snaps subvols (.ok ())

/-- Snapshot row 5, self-consistent with subvolume 101. -/
def exC8snaps : List (Nat × SnapRow) :=
  [(5, { deleted := false, isSubvol := true, parent := 0,
         child0 := 0, child1 := 0, subvol := 101 })]

/-- Subvolume 100 points at the nonexistent snapshot 9; subvolume 101 points
at the existing snapshot 5 and is visited after it. -/
def exC8subvols : List (Nat × SubvolRow) :=
  [(100, { ro := false, isSnap := false, snapshot := 9, inode := 0 }),
   (101, { ro := false, isSnap := false, snapshot := 5, inode := 0 })]

/-- C8 names a real code bug: subvolume 100's `snapshot` field names a row
that does not exist, yet the checker returns ok, because the second pass only
logs the `-ENOENT` and the per-iteration reassignment of `ret` lets the later,
passing row overwrite it. -/
theorem C8_checker_ok_despite_dangling :
    lookupA exC8snaps 9 = none ∧
    (∃ sv, lookupA exC8subvols 100 = some sv ∧ sv.snapshot = 9) ∧
    bch2_fs_snapshots_check exC8snaps exC8subvols = .ok () := by
  refine ⟨rfl, ⟨_, rfl, rfl⟩, rfl⟩

/-! ### Creation protocol (`bch2_snapshot_node_create`, `bch2_subvolume_create`) -/

/-- The slot scan of `bch2_subvolume_create`: iterate positions from
`SUBVOL_POS_MIN` (`BTREE_ITER_SLOTS`), stopping past `SUBVOL_POS_MAX`, and
return the first position holding no subvolume row.  `fuel` is the number of
positions in the reserved range still to scan. -/
def findSlotL (subvols : List (Nat × SubvolRow)) : Nat → Nat → Option Nat
  | _, 0 => none
  | pos, fuel + 1 =>
    if lookupA subvols pos = none then some pos
    else findSlotL subvols (pos + 1) fuel

theorem findSlotL_lookup_none (subvols : List (Nat × SubvolRow)) :
    ∀ fuel pos slot, findSlotL subvols pos fuel = some slot →
      lookupA subvols slot = none := by
  intro fuel
  induction fuel with
  | zero => intro pos slot h; exact absurd h (by simp [findSlotL])
  | succ n ih =>
    intro pos slot h
    by_cases hl : lookupA subvols pos = none
    · simp only [findSlotL, hl, if_pos] at h
      cases h; exact hl
    · simp only [findSlotL, hl, if_neg, if_false] at h
      exact ih _ _ h

/-- The first key of the store in key order: what
`bch2_btree_iter_peek` from `POS_MIN` finds on the snapshot btree. -/
def minKey {α : Type} : List (Nat × α) → Option Nat
  | [] => none
  | p :: rest =>
    match minKey rest with
    | none => some p.1
    | some m => some (min p.1 m)

/-- The first row at a key ≥ `id` (`bch2_btree_iter_set_pos` followed by
`bch2_btree_iter_peek`). -/
def lookupGE {α : Type} : List (Nat × α) → Nat → Option (Nat × α)
  | [], _ => none
  | p :: rest, id =>
    match lookupGE rest id with
    | none => if id ≤ p.1 then some p else none
    | some q => if id ≤ p.1 ∧ p.1 ≤ q.1 then some p else some q

/-- Embedding of `bch2_snapshot_node_create`.  The backwards slot walk of the source
(`bch2_btree_iter_peek` from `POS_MIN`, then `nr` times
`bch2_btree_iter_prev_slot`) allocates the `nr` ids directly below the first
occupied id; `-ENOSPC` when the walk runs out of non-zero offsets.  Each new
row is born with `parent`, flag `IS_SUBVOL`, `subvol = snapshot_subvols[i]`
and no children; afterwards, for a non-zero `parent`, the parent row (found
by a `peek` at its position) must have no children yet (`-EINVAL`), receives
`children = {new_snapids[0], new_snapids[1]}` and loses `IS_SUBVOL`. -/
def bch2_snapshot_node_create (snaps : List (Nat × SnapRow)) (parent : Nat)
    (snapshot_subvols : List Nat) (nr : Nat) :
    Except Err (List Nat × List (Nat × SnapRow)) :=
  match minKey snaps with
  | none => .error .ENOSPC
  | some m =>
    if m ≤ nr then .error .ENOSPC
    else
      let newIds := (List.range nr).map (fun i => m - 1 - i)
      let snaps1 := (List.range nr).foldl (fun acc i =>
        updateA acc (m - 1 - i)
          { deleted := false, isSubvol := true, parent := parent,
            child0 := 0, child1 := 0, subvol := snapshot_subvols.getD i 0 }) snaps
      if parent ≠ 0 then
        match lookupGE snaps1 parent with
        | none => .error .ENOENT
        | some pr =>
          if pr.2.child0 ≠ 0 ∨ pr.2.child1 ≠ 0 then .error .EINVAL
          else
            let plinked : SnapRow :=
              { pr.2 with
                child0 := newIds.getD 0 0
                child1 := newIds.getD 1 0
                isSubvol := false }
            .ok (newIds, updateA snaps1 pr.1 plinked)
      else .ok (newIds, snaps1)

/-- The filesystem state seen by the creation protocol: the snapshot and
subvolume btrees. -/
structure FsState where
  snaps : List (Nat × SnapRow)
  subvols : List (Nat × SubvolRow)
  deriving DecidableEq, Repr

/-- Embedding of `bch2_subvolume_create(trans, inode, src_subvolid, &new_subvolid,
&new_snapshotid, ro)`, returning `(new_subvolid, new_snapshotid, state')`.
`smin`/`smax` delimit the reserved subvolume range `SUBVOL_POS_MIN ..
SUBVOL_POS_MAX` (defined outside this file's source). -/
def bch2_subvolume_create (st : FsState) (smin smax : Nat) (inode : Nat)
    (src_subvolid : Nat) (ro : Bool) : Except Err (Nat × Nat × FsState) :=
  match findSlotL st.subvols smin (smax + 1 - smin) with
  | none => .error .ENOSPC
  | some slot =>
    match (if src_subvolid ≠ 0 then
             match lookupA st.subvols src_subvolid with
             | none => Except.error Err.ENOENT
             | some src => Except.ok (some src)
           else Except.ok none) with
    | .error e => .error e
    | .ok srcOpt =>
      let parent := match srcOpt with
        | some src => src.snapshot
        | none => 0
      match bch2_snapshot_node_create st.snaps parent [slot, src_subvolid]
              (if src_subvolid ≠ 0 then 2 else 1) with
      | .error e => .error e
      | .ok (newIds, snaps') =>
        let subvols1 := match srcOpt with
          | some src => updateA st.subvols src_subvolid
              { src with snapshot := newIds.getD 1 0 }
          | none => st.subvols
        let newRow : SubvolRow :=
          { ro := ro, isSnap := decide (src_subvolid ≠ 0),
            snapshot := newIds.getD 0 0, inode := inode }
        .ok (slot, newIds.getD 0 0,
             { snaps := snaps', subvols := updateA subvols1 slot newRow })

/-- C4: on the successful snapshot-of-subvolume path, the source subvolume is
rebased onto `new_nodes[1]`, the new subvolume row carries
`snapshot = new_nodes[0]`, the given inode, `READ_ONLY` per `ro` and
`IS_SNAPSHOT`, and the call returns the newly allocated slot together with
`new_nodes[0]`. -/
theorem C4_subvolume_create_snapshot (st : FsState) (smin smax inode src : Nat)
    (ro : Bool) (v s : Nat) (st' : FsState) (hsrc : src ≠ 0)
    (hok : bch2_subvolume_create st smin smax inode src ro = .ok (v, s, st')) :
    ∃ slot srcRow newIds snaps',
      findSlotL st.subvols smin (smax + 1 - smin) = some slot ∧
      lookupA st.subvols src = some srcRow ∧
      bch2_snapshot_node_create st.snaps srcRow.snapshot [slot, src] 2 =
        .ok (newIds, snaps') ∧
      v = slot ∧ s = newIds.getD 0 0 ∧ st'.snaps = snaps' ∧
      lookupA st'.subvols src =
        some { srcRow with snapshot := newIds.getD 1 0 } ∧
      lookupA st'.subvols v =
        some { ro := ro, isSnap := true, snapshot := newIds.getD 0 0,
               inode := inode } := by
  unfold bch2_subvolume_create at hok
  cases hslot : findSlotL st.subvols smin (smax + 1 - smin) with
  | none => rw [hslot] at hok; exact absurd hok (by simp)
  | some slot =>
    rw [hslot] at hok
    rw [if_pos hsrc] at hok
    cases hsrcRow : lookupA st.subvols src with
    | none => rw [hsrcRow] at hok; exact absurd hok (by simp)
    | some srcRow =>
      rw [hsrcRow] at hok
      rw [if_pos hsrc] at hok
      dsimp only at hok
      cases hnc : bch2_snapshot_node_create st.snaps srcRow.snapshot
          [slot, src] 2 with
      | error e => rw [hnc] at hok; exact absurd hok (by simp)
      | ok pr =>
        obtain ⟨newIds, snaps'⟩ := pr
        rw [hnc] at hok
        dsimp only at hok
        simp only [Except.ok.injEq, Prod.mk.injEq] at hok
        obtain ⟨hv, hs, hst⟩ := hok
        subst hv; subst hs; subst hst
        have hslotfree : lookupA st.subvols slot = none :=
          findSlotL_lookup_none st.subvols _ _ _ hslot
        have hne : src ≠ slot := by
          intro h; rw [h, hslotfree] at hsrcRow; exact absurd hsrcRow (by simp)
        refine ⟨slot, srcRow, newIds, snaps', rfl, rfl, hnc, rfl, rfl,
          rfl, ?_, ?_⟩
        · rw [lookupA_updateA_other _ _ _ _ hne, lookupA_updateA_self]
        · rw [lookupA_updateA_self, decide_eq_true hsrc]

/-- A one-subvolume filesystem: subvolume 1 at snapshot 10, root inode 42. -/
def stC4 : FsState :=
  { snaps := [(10, ⟨false, true, 0, 0, 0, 1⟩)],
    subvols := [(1, ⟨false, false, 10, 42⟩)] }

/-- The state `bch2_subvolume_create stC4 1 4 100 1 true` commits: snapshot 10
gains children 9 and 8 and loses `IS_SUBVOL`; the source subvolume 1 is
rebased to snapshot 8; the new subvolume 2 lives at snapshot 9. -/
def stC4' : FsState :=
  { snaps := [(10, ⟨false, false, 0, 9, 8, 1⟩),
              (9, ⟨false, true, 10, 0, 0, 2⟩),
              (8, ⟨false, true, 10, 0, 0, 1⟩)],
    subvols := [(1, ⟨false, false, 8, 42⟩), (2, ⟨true, true, 9, 100⟩)] }

/-- Witness for C4 on the concrete snapshot-of-subvolume call above. -/
theorem C4_witness :
    ∃ slot srcRow newIds snaps',
      findSlotL stC4.subvols 1 (4 + 1 - 1) = some slot ∧
      lookupA stC4.subvols 1 = some srcRow ∧
      bch2_snapshot_node_create stC4.snaps srcRow.snapshot [slot, 1] 2 =
        .ok (newIds, snaps') ∧
      2 = slot ∧ 9 = newIds.getD 0 0 ∧ stC4'.snaps = snaps' ∧
      lookupA stC4'.subvols 1 =
        some { srcRow with snapshot := newIds.getD 1 0 } ∧
      lookupA stC4'.subvols 2 =
        some { ro := true, isSnap := true, snapshot := newIds.getD 0 0,
               inode := 100 } :=
  C4_subvolume_create_snapshot stC4 1 4 100 1 true 2 9 stC4' (by decide) rfl

/-! ### Key sweep (`bch2_snapshot_delete_keys_btree`) -/

/-- Embedding of `snapshot_list_has_id`: linear membership scan of a snapshot id list. -/
def snapshot_list_has_id (s : List Nat) (id : Nat) : Bool :=
  match s with
  | [] => false
  | x :: rest => if id = x then true else snapshot_list_has_id rest id

/-- The loop body state of `bch2_snapshot_delete_keys_btree`: `equiv_seen` and
`last_pos` threaded through the iteration; the result records, for each key in
btree order, whether it was deleted (`true`) or kept (`false`).  A kept key
appends its equivalence representative to `equiv_seen`.  The
`BTREE_ID_inodes` key-cache flush branch touches the external key cache (out
of scope); this is the sweep of a btree where that branch is not taken. -/
def sweepGo (deleted : List Nat) (equiv : Nat → Nat) :
    List Nat → Bpos → List Bpos → List Bool
  | _, _, [] => []
  | seen, lastPos, k :: rest =>
    let seen1 := if bkeyCmp k lastPos = 0 then seen else []
    let e := equiv k.snapshot
    if snapshot_list_has_id deleted k.snapshot ||
        snapshot_list_has_id seen1 e then
      true :: sweepGo deleted equiv seen1 k rest
    else
      false :: sweepGo deleted equiv (seen1 ++ [e]) k rest

/-- Embedding of `bch2_snapshot_delete_keys_btree`, starting from `POS_MIN` with an empty
`equiv_seen` list. -/
def bch2_snapshot_delete_keys_btree (deleted : List Nat) (equiv : Nat → Nat)
    (keys : List Bpos) : List Bool :=
  sweepGo deleted equiv [] POS_MIN keys

/-- The `i`-th key position of the walk. -/
def keyAt (keys : List Bpos) (i : Nat) : Bpos := keys.getD i POS_MIN

/-- Equality of the non-snapshot position components. -/
def samePos (a b : Bpos) : Bool := a.inode == b.inode && a.offset == b.offset

/-- Modelled from the spec: the per-position set `seen_equivs` in force when
key `i` is visited — reset whenever the key's non-snapshot position changes,
and accumulating the representative of every key kept so far in the current
same-position run. -/
def seenSpec (deleted : List Nat) (equiv : Nat → Nat) (keys : List Bpos) :
    Nat → List Nat
  | 0 => []
  | i + 1 =>
    let prev := seenSpec deleted equiv keys i
    let ki := keyAt keys i
    if samePos (keyAt keys (i + 1)) ki then
      if snapshot_list_has_id deleted ki.snapshot ||
          snapshot_list_has_id prev (equiv ki.snapshot) then prev
      else prev ++ [equiv ki.snapshot]
    else []

/-- Modelled from the spec: key `i` is deleted exactly when its snapshot id is
in the deleted list or its representative is already in `seen_equivs`. -/
def delSpec (deleted : List Nat) (equiv : Nat → Nat) (keys : List Bpos)
    (i : Nat) : Bool :=
  snapshot_list_has_id deleted (keyAt keys i).snapshot ||
    snapshot_list_has_id (seenSpec deleted equiv keys i)
      (equiv (keyAt keys i).snapshot)

/-- The `equiv_seen` list carried (pre-reset) into iteration `i`. -/
def carrySpec (deleted : List Nat) (equiv : Nat → Nat) (keys : List Bpos) :
    Nat → List Nat
  | 0 => []
  | i + 1 =>
    if delSpec deleted equiv keys i then seenSpec deleted equiv keys i
    else seenSpec deleted equiv keys i ++ [equiv (keyAt keys i).snapshot]

/-- The `last_pos` value carried into iteration `i`. -/
def lastAt (keys : List Bpos) : Nat → Bpos
  | 0 => POS_MIN
  | i + 1 => keyAt keys i

theorem bkeyCmp_eq_zero_iff (a b : Bpos) :
    bkeyCmp a b = 0 ↔ samePos a b = true := by
  simp only [bkeyCmp, samePos, Bool.and_eq_true, beq_iff_eq]
  split_ifs <;> simp_all <;> omega

theorem drop_eq_cons_parts (keys : List Bpos) :
    ∀ i k rest, keys.drop i = k :: rest →
      keyAt keys i = k ∧ keys.drop (i + 1) = rest := by
  induction keys with
  | nil => intro i k rest h; simp at h
  | cons a tl ih =>
    intro i k rest h
    cases i with
    | zero =>
      simp only [List.drop_zero] at h
      cases h
      exact ⟨rfl, by simp⟩
    | succ j =>
      simp only [List.drop_succ_cons] at h
      obtain ⟨h1, h2⟩ := ih j k rest h
      exact ⟨h1, h2⟩

theorem sweepGo_spec (deleted : List Nat) (equiv : Nat → Nat)
    (keys : List Bpos) :
    ∀ (l : List Bpos) (i : Nat), keys.drop i = l →
      sweepGo deleted equiv (carrySpec deleted equiv keys i) (lastAt keys i)
          l =
        (List.range' i l.length).map (delSpec deleted equiv keys) := by
  intro l
  induction l with
  | nil => intro i _; simp [sweepGo]
  | cons k rest ih =>
    intro i hd
    obtain ⟨hki, hrest⟩ := drop_eq_cons_parts keys i k rest hd
    have hseen1 :
        (if bkeyCmp k (lastAt keys i) = 0
         then carrySpec deleted equiv keys i else []) =
          seenSpec deleted equiv keys i := by
      cases i with
      | zero =>
        simp only [carrySpec, seenSpec]
        exact ite_self _
      | succ j =>
        by_cases hsp : samePos (keyAt keys (j + 1)) (keyAt keys j) = true
        · rw [if_pos]
          · simp only [seenSpec, hsp, if_pos, carrySpec, delSpec]
          · rw [bkeyCmp_eq_zero_iff, ← hki]; exact hsp
        · rw [if_neg]
          · simp [seenSpec, hsp]
          · rw [bkeyCmp_eq_zero_iff, ← hki]; exact hsp
    have hdel :
        (snapshot_list_has_id deleted k.snapshot ||
          snapshot_list_has_id (seenSpec deleted equiv keys i)
            (equiv k.snapshot)) = delSpec deleted equiv keys i := by
      rw [delSpec, hki]
    simp only [sweepGo, hseen1, hdel]
    rw [List.length_cons, List.range'_succ, List.map_cons]
    by_cases hd2 : delSpec deleted equiv keys i = true
    · rw [if_pos hd2, hd2]
      congr 1
      have hc : seenSpec deleted equiv keys i =
          carrySpec deleted equiv keys (i + 1) := by
        simp [carrySpec, hd2]
      have hl : k = lastAt keys (i + 1) := by simp [lastAt, hki]
      rw [hc, hl]
      exact ih (i + 1) hrest
    · rw [if_neg hd2]
      rw [Bool.not_eq_true] at hd2
      rw [hd2]
      congr 1
      have hc : seenSpec deleted equiv keys i ++ [equiv k.snapshot] =
          carrySpec deleted equiv keys (i + 1) := by
        simp [carrySpec, hd2, hki]
      have hl : k = lastAt keys (i + 1) := by simp [lastAt, hki]
      rw [hc, hl]
      exact ih (i + 1) hrest

/-- C7: the key sweep deletes exactly the keys whose snapshot id is in the
deleted list or whose equivalence representative was already seen since the
last change of the key's non-snapshot position, and every kept key
contributes its representative to the seen set: the source sweep equals the
spec-side description key for key. -/
theorem C7_sweep_matches_spec (deleted : List Nat) (equiv : Nat → Nat)
    (keys : List Bpos) :
    bch2_snapshot_delete_keys_btree deleted equiv keys =
      (List.range keys.length).map (delSpec deleted equiv keys) := by
  have h := sweepGo_spec deleted equiv keys keys 0 rfl
  rw [List.range_eq_range']
  exact h

/-! ### Reclamation walks (`bch2_delete_dead_snapshots_work` phase 1,
`bch2_snapshots_set_equiv`) -/

/-- Modelled from the spec: the `for_each_btree_key` walk (the iteration macro
lives outside this file's source).  The walk visits the snapshot rows in
increasing id order, one step per row; per the spec's propagation policy an
error aborts the phase and surfaces. -/
def walkE {σ : Type} (step : σ → Nat → Except Unit σ) : σ → List Nat → Except Unit σ
  | s, [] => .ok s
  | s, id :: rest =>
    match step s id with
    | .error _ => .error ()
    | .ok s1 => walkE step s1 rest

/-- Embedding of `snapshot_lookup` composed into `snapshot_live`: id 0 is "absent,
harmless" (returns 0); a missing non-zero id is `-ENOENT`; otherwise
liveness is `!BCH_SNAPSHOT_DELETED`. -/
def snapshot_live (m : Nat → Option SnapRow) (id : Nat) : Except Unit Nat :=
  if id = 0 then .ok 0
  else
    match m id with
    | none => .error ()
    | some v => .ok (if v.deleted then 0 else 1)

/-- The elvis chain `snapshot_live(trans, children[0]) ?: snapshot_live(trans, children[1])`:
the second child is consulted only when the first is neither live nor an
error. -/
def liveOrElse (m : Nat → Option SnapRow) (c0 c1 : Nat) : Except Unit Nat :=
  match snapshot_live m c0 with
  | .error _ => .error ()
  | .ok r0 => if r0 ≠ 0 then .ok r0 else snapshot_live m c1

/-- A child entry counts as dead when it is 0 or its row has `DELETED` set. -/
def childDeadB (m : Nat → Option SnapRow) (c : Nat) : Bool :=
  c == 0 ||
    (match m c with
     | some r => r.deleted
     | none => false)

/-- A child entry is live when non-zero and its row exists without `DELETED`. -/
def liveB (m : Nat → Option SnapRow) (c : Nat) : Bool :=
  (!(c == 0)) &&
    (match m c with
     | some r => !r.deleted
     | none => false)

theorem snapshot_live_eq_dead (m : Nat → Option SnapRow) (c : Nat)
    (hex : c ≠ 0 → (m c).isSome) :
    snapshot_live m c = .ok (if childDeadB m c = true then 0 else 1) := by
  by_cases h0 : c = 0
  · simp [snapshot_live, h0, childDeadB]
  · obtain ⟨v, hv⟩ := Option.isSome_iff_exists.mp (hex h0)
    simp only [snapshot_live, h0, if_neg, hv, childDeadB, beq_iff_eq,
      Bool.or_eq_true, decide_eq_true_eq]
    cases hd : v.deleted <;> simp [h0, hd]

theorem snapshot_live_eq_live (m : Nat → Option SnapRow) (c : Nat)
    (hex : c ≠ 0 → (m c).isSome) :
    snapshot_live m c = .ok (if liveB m c = true then 1 else 0) := by
  by_cases h0 : c = 0
  · simp [snapshot_live, h0, liveB]
  · obtain ⟨v, hv⟩ := Option.isSome_iff_exists.mp (hex h0)
    simp only [snapshot_live, h0, if_neg, hv, liveB, beq_iff_eq]
    cases hd : v.deleted <;> simp [h0, hd]

theorem liveOrElse_eq (m : Nat → Option SnapRow) (c0 c1 : Nat)
    (hex0 : c0 ≠ 0 → (m c0).isSome) (hex1 : c1 ≠ 0 → (m c1).isSome) :
    liveOrElse m c0 c1 =
      .ok (if childDeadB m c0 = true then
             (if childDeadB m c1 = true then 0 else 1)
           else 1) := by
  rw [liveOrElse, snapshot_live_eq_dead m c0 hex0]
  cases hd0 : childDeadB m c0
  · simp
  · simp [snapshot_live_eq_dead m c1 hex1]

/-- The loop body of reclamation phase 1 (dead detection) for one row: skip
rows that are `DELETED` or `IS_SUBVOL`; when both children are dead
(`snapshot_live(c0) ?: snapshot_live(c1)` returns 0), mark the row `DELETED`
(the in-row update that `bch2_snapshot_node_set_deleted` performs on a
present, not-yet-deleted row). -/
def deadStep (m : Nat → Option SnapRow) (id : Nat) :
    Except Unit (Nat → Option SnapRow) :=
  match m id with
  | none => .ok m
  | some snap =>
    if snap.deleted || snap.isSubvol then .ok m
    else
      match liveOrElse m snap.child0 snap.child1 with
      | .error _ => .error ()
      | .ok r =>
        if r ≠ 0 then .ok m
        else .ok (fun j => if j = id then some { snap with deleted := true }
                           else m j)

theorem deadStep_ok (m : Nat → Option SnapRow) (id : Nat) (snap : SnapRow)
    (hm : m id = some snap) (hd : snap.deleted = false)
    (hs : snap.isSubvol = false)
    (hex0 : snap.child0 ≠ 0 → (m snap.child0).isSome)
    (hex1 : snap.child1 ≠ 0 → (m snap.child1).isSome) :
    deadStep m id =
      .ok (if (childDeadB m snap.child0 && childDeadB m snap.child1) = true
           then (fun j => if j = id then some { snap with deleted := true }
                          else m j)
           else m) := by
  rw [deadStep]
  rw [hm]
  simp only [hd, hs, Bool.or_self, if_neg, Bool.false_eq_true,
    liveOrElse_eq m snap.child0 snap.child1 hex0 hex1]
  cases hd0 : childDeadB m snap.child0
  · simp
  · cases hd1 : childDeadB m snap.child1 <;> simp

/-- The loop body of `bch2_snapshots_set_equiv` for one row: count the live
children (`nr_live`), remember the index of the last live one, and set the
cached `equiv` to the live child's cached `equiv` when `nr_live == 1`, else
to the id itself. -/
def setEquivStep (snaps : Nat → Option SnapRow) (eqv : Nat → Nat) (id : Nat) :
    Except Unit (Nat → Nat) :=
  match snaps id with
  | none => .ok eqv
  | some snap =>
    match snapshot_live snaps snap.child0 with
    | .error _ => .error ()
    | .ok r0 =>
      match snapshot_live snaps snap.child1 with
      | .error _ => .error ()
      | .ok r1 =>
        .ok (fun j =>
          if j = id then
            (if r0 + r1 = 1 then eqv (if r1 ≠ 0 then snap.child1 else snap.child0)
             else id)
          else eqv j)

theorem setEquivStep_ok (snaps : Nat → Option SnapRow) (eqv : Nat → Nat)
    (id : Nat) (snap : SnapRow) (hm : snaps id = some snap)
    (hex0 : snap.child0 ≠ 0 → (snaps snap.child0).isSome)
    (hex1 : snap.child1 ≠ 0 → (snaps snap.child1).isSome) :
    setEquivStep snaps eqv id =
      .ok (fun j =>
        if j = id then
          (if (liveB snaps snap.child0).toNat + (liveB snaps snap.child1).toNat = 1
           then eqv (if liveB snaps snap.child1 = true then snap.child1
                     else snap.child0)
           else id)
        else eqv j) := by
  rw [setEquivStep]
  rw [hm]
  dsimp only
  rw [snapshot_live_eq_live snaps snap.child0 hex0,
    snapshot_live_eq_live snaps snap.child1 hex1]
  cases h0 : liveB snaps snap.child0 <;> cases h1 : liveB snaps snap.child1 <;>
    simp

theorem walkE_cons {σ : Type} (step : σ → Nat → Except Unit σ) (s : σ)
    (id : Nat) (rest : List Nat) :
    walkE step s (id :: rest) =
      match step s id with
      | .error _ => .error ()
      | .ok s1 => walkE step s1 rest := rfl

theorem deadStep_none {m : Nat → Option SnapRow} {id : Nat}
    (h : m id = none) : deadStep m id = .ok m := by
  simp only [deadStep, h]

theorem deadStep_skip {m : Nat → Option SnapRow} {id : Nat} {snap : SnapRow}
    (h : m id = some snap) (hf : (snap.deleted || snap.isSubvol) = true) :
    deadStep m id = .ok m := by
  simp only [deadStep, h, hf, if_true]

theorem childDeadB_congr (m m' : Nat → Option SnapRow) (c : Nat)
    (h : c ≠ 0 → m' c = m c) : childDeadB m' c = childDeadB m c := by
  by_cases h0 : c = 0
  · simp [childDeadB, h0]
  · simp [childDeadB, h0, h h0]

/-- The condition under which phase 1 newly marks a row `DELETED`, read in a
given store: not yet `DELETED`, not `IS_SUBVOL`, and both children dead. -/
def deadCond (m : Nat → Option SnapRow) (row : SnapRow) : Bool :=
  !row.deleted && !row.isSubvol &&
    childDeadB m row.child0 && childDeadB m row.child1

theorem deadWalk_main :
    ∀ (ids : List Nat) (m : Nat → Option SnapRow),
      List.Sorted (· < ·) ids →
      (∀ id, id ∈ ids → ∀ row, m id = some row →
        (row.child0 ≠ 0 → row.child0 < id) ∧
        (row.child1 ≠ 0 → row.child1 < id)) →
      (∀ id, id ∈ ids → ∀ row, m id = some row →
        (row.child0 ≠ 0 → (m row.child0).isSome) ∧
        (row.child1 ≠ 0 → (m row.child1).isSome)) →
      ∃ m', walkE deadStep m ids = .ok m' ∧
        (∀ j, j ∉ ids → m' j = m j) ∧
        (∀ id, id ∈ ids →
          (m id = none → m' id = none) ∧
          (∀ row, m id = some row →
            m' id = some (if deadCond m' row = true
                          then { row with deleted := true } else row))) := by
  intro ids
  induction ids with
  | nil =>
    intro m _ _ _
    exact ⟨m, rfl, fun j _ => rfl, fun id h => absurd h (List.not_mem_nil id)⟩
  | cons id rest ih =>
    intro m hsort H2 H3
    rw [List.sorted_cons] at hsort
    obtain ⟨hlt, hsort'⟩ := hsort
    have hidrest : id ∉ rest := fun h => lt_irrefl id (hlt id h)
    have hmemlt : ∀ c, c < id → c ∉ rest := fun c hc hmem =>
      absurd (lt_trans hc (hlt c hmem)) (lt_irrefl c)
    cases hmid : m id with
    | none =>
      obtain ⟨m', hwalk, hun, hper⟩ := ih m hsort'
        (fun i hi row hr => H2 i (List.mem_cons_of_mem _ hi) row hr)
        (fun i hi row hr => H3 i (List.mem_cons_of_mem _ hi) row hr)
      refine ⟨m', ?_, ?_, ?_⟩
      · rw [walkE_cons, deadStep_none hmid]
        exact hwalk
      · intro j hj
        exact hun j (fun hh => hj (List.mem_cons_of_mem _ hh))
      · intro i hi
        rcases List.mem_cons.mp hi with hi | hi
        · subst hi
          refine ⟨fun _ => ?_, fun row hrow => ?_⟩
          · rw [hun i hidrest, hmid]
          · rw [hmid] at hrow; cases hrow
        · exact hper i hi
    | some snap =>
      have hbound := H2 id (List.mem_cons_self id rest) snap hmid
      have hex := H3 id (List.mem_cons_self id rest) snap hmid
      cases hflag : (snap.deleted || snap.isSubvol) with
      | true =>
        obtain ⟨m', hwalk, hun, hper⟩ := ih m hsort'
          (fun i hi row hr => H2 i (List.mem_cons_of_mem _ hi) row hr)
          (fun i hi row hr => H3 i (List.mem_cons_of_mem _ hi) row hr)
        refine ⟨m', ?_, ?_, ?_⟩
        · rw [walkE_cons, deadStep_skip hmid hflag]
          exact hwalk
        · intro j hj
          exact hun j (fun hh => hj (List.mem_cons_of_mem _ hh))
        · intro i hi
          rcases List.mem_cons.mp hi with hi | hi
          · subst hi
            refine ⟨fun hnone => ?_, fun row hrow => ?_⟩
            · rw [hmid] at hnone; cases hnone
            · rw [hmid] at hrow
              injection hrow with heq
              rw [← heq]
              have h1 : (!snap.deleted && !snap.isSubvol) = false := by
                rw [Bool.or_eq_true] at hflag
                rcases hflag with h | h <;> rw [h] <;> simp
              have hcfalse : deadCond m' snap = false := by
                rw [deadCond, h1]
                simp
              rw [hun i hidrest, hmid, hcfalse]
              simp
          · exact hper i hi
      | false =>
        obtain ⟨hd, hs⟩ := Bool.or_eq_false_iff.mp hflag
        have hstep := deadStep_ok m id snap hmid hd hs hex.1 hex.2
        cases hcd : (childDeadB m snap.child0 && childDeadB m snap.child1) with
        | false =>
          rw [hcd] at hstep
          rw [if_neg (by simp)] at hstep
          obtain ⟨m', hwalk, hun, hper⟩ := ih m hsort'
            (fun i hi row hr => H2 i (List.mem_cons_of_mem _ hi) row hr)
            (fun i hi row hr => H3 i (List.mem_cons_of_mem _ hi) row hr)
          have hagree : ∀ c, c ≠ 0 → c < id → m' c = m c := fun c _ hc =>
            hun c (hmemlt c hc)
          refine ⟨m', ?_, ?_, ?_⟩
          · rw [walkE_cons, hstep]
            exact hwalk
          · intro j hj
            exact hun j (fun hh => hj (List.mem_cons_of_mem _ hh))
          · intro i hi
            rcases List.mem_cons.mp hi with hi | hi
            · subst hi
              refine ⟨fun hnone => ?_, fun row hrow => ?_⟩
              · rw [hmid] at hnone; cases hnone
              · rw [hmid] at hrow
                injection hrow with heq
                rw [← heq]
                have hc0 : childDeadB m' snap.child0 = childDeadB m snap.child0 :=
                  childDeadB_congr m m' snap.child0
                    (fun hc => hagree _ hc ((hbound.1) hc))
                have hc1 : childDeadB m' snap.child1 = childDeadB m snap.child1 :=
                  childDeadB_congr m m' snap.child1
                    (fun hc => hagree _ hc ((hbound.2) hc))
                have hcfalse : deadCond m' snap = false := by
                  rw [deadCond, hc0, hc1, hd, hs]
                  simpa using hcd
                rw [hun i hidrest, hmid, hcfalse]
                simp
            · exact hper i hi
        | true =>
          rw [hcd] at hstep
          rw [if_pos rfl] at hstep
          rw [Bool.and_eq_true] at hcd
          obtain ⟨hcd0, hcd1⟩ := hcd
          set m1 : Nat → Option SnapRow :=
            fun j => if j = id then some { snap with deleted := true } else m j
            with hm1
          have hm1other : ∀ j, j ≠ id → m1 j = m j := by
            intro j hj
            rw [hm1]
            simp [hj]
          have hm1some : ∀ j, (m1 j).isSome = (m j).isSome := by
            intro j
            by_cases hj : j = id
            · subst hj
              rw [hm1]
              simp [hmid]
            · rw [hm1other j hj]
          obtain ⟨m', hwalk, hun, hper⟩ := ih m1 hsort'
            (fun i hi row hr => by
              have hine : i ≠ id := fun hh => hidrest (hh ▸ hi)
              rw [hm1other i hine] at hr
              exact H2 i (List.mem_cons_of_mem _ hi) row hr)
            (fun i hi row hr => by
              have hine : i ≠ id := fun hh => hidrest (hh ▸ hi)
              rw [hm1other i hine] at hr
              have hh := H3 i (List.mem_cons_of_mem _ hi) row hr
              exact ⟨fun hc => (hm1some row.child0) ▸ hh.1 hc,
                fun hc => (hm1some row.child1) ▸ hh.2 hc⟩)
          have hagree : ∀ c, c ≠ 0 → c < id → m' c = m c := fun c _ hc => by
            rw [hun c (hmemlt c hc), hm1other c (Nat.ne_of_lt hc)]
          refine ⟨m', ?_, ?_, ?_⟩
          · rw [walkE_cons, hstep]
            exact hwalk
          · intro j hj
            rw [hun j (fun hh => hj (List.mem_cons_of_mem _ hh)),
              hm1other j (fun hh => hj (hh ▸ List.mem_cons_self id rest))]
          · intro i hi
            rcases List.mem_cons.mp hi with hi | hi
            · subst hi
              refine ⟨fun hnone => ?_, fun row hrow => ?_⟩
              · rw [hmid] at hnone; cases hnone
              · rw [hmid] at hrow
                injection hrow with heq
                rw [← heq]
                have hc0 : childDeadB m' snap.child0 = childDeadB m snap.child0 :=
                  childDeadB_congr m m' snap.child0
                    (fun hc => hagree _ hc ((hbound.1) hc))
                have hc1 : childDeadB m' snap.child1 = childDeadB m snap.child1 :=
                  childDeadB_congr m m' snap.child1
                    (fun hc => hagree _ hc ((hbound.2) hc))
                have hctrue : deadCond m' snap = true := by
                  rw [deadCond, hc0, hc1, hd, hs, hcd0, hcd1]
                  simp
                rw [hun i hidrest, hm1, hctrue]
                simp
            · have hine : i ≠ id := fun hh => hidrest (hh ▸ hi)
              have := hper i hi
              rw [hm1other i hine] at this
              exact this

theorem lookupA_mem {α : Type} {l : List (Nat × α)} {id : Nat} {v : α}
    (h : lookupA l id = some v) : (id, v) ∈ l := by
  induction l with
  | nil => simp [lookupA] at h
  | cons p rest ih =>
    obtain ⟨p1, p2⟩ := p
    by_cases hp : p1 = id
    · simp only [lookupA] at h
      rw [if_pos hp] at h
      injection h with h
      subst hp
      subst h
      exact List.mem_cons_self _ _
    · simp only [lookupA] at h
      rw [if_neg hp] at h
      exact List.mem_cons_of_mem _ (ih h)

/-- C5: reclamation phase 1 over a validated store (rows sorted by id,
children smaller than their row's id, every non-zero child naming an existing
row) succeeds and marks `DELETED` exactly the rows that had `DELETED` and
`IS_SUBVOL` clear and whose two children entries are each 0 or name a
`DELETED` row (in the resulting store, which accounts for the in-order
cascade); all other rows are unchanged, and id 0 is harmless. -/
theorem C5_dead_detection (l : List (Nat × SnapRow))
    (hsort : List.Sorted (· < ·) (l.map Prod.fst))
    (hchild : ∀ p ∈ l, (p.2.child0 ≠ 0 → p.2.child0 < p.1) ∧
      (p.2.child1 ≠ 0 → p.2.child1 < p.1))
    (hex : ∀ p ∈ l, (p.2.child0 ≠ 0 → (lookupA l p.2.child0).isSome) ∧
      (p.2.child1 ≠ 0 → (lookupA l p.2.child1).isSome)) :
    ∃ m', walkE deadStep (lookupA l) (l.map Prod.fst) = .ok m' ∧
      ∀ id, (match lookupA l id with
             | none => m' id = none
             | some row =>
               m' id = some (if deadCond m' row = true
                             then { row with deleted := true } else row)) := by
  obtain ⟨m', hwalk, hun, hper⟩ := deadWalk_main (l.map Prod.fst) (lookupA l)
    hsort
    (fun id _ row hrow => hchild (id, row) (lookupA_mem hrow))
    (fun id _ row hrow => hex (id, row) (lookupA_mem hrow))
  refine ⟨m', hwalk, ?_⟩
  intro id
  cases hl : lookupA l id with
  | none =>
    have hnm : id ∉ l.map Prod.fst := fun hm => by
      have hsm := lookupA_isSome_of_mem hm
      rw [hl] at hsm
      simp at hsm
    exact hun id hnm |>.trans hl
  | some row =>
    exact (hper id (lookupA_mem_keys hl)).2 row hl

/-- A childless, subvolume-less leaf (id 3) below its live parent (id 5):
phase 1 marks 3 dead, and then — because the walk is in increasing id order —
also marks 5, whose only child is now `DELETED`. -/
def lC5 : List (Nat × SnapRow) :=
  [(3, ⟨false, false, 5, 0, 0, 0⟩), (5, ⟨false, false, 0, 3, 0, 0⟩)]

/-- Witness for C5 on the concrete store above. -/
theorem C5_witness :
    ∃ m', walkE deadStep (lookupA lC5) (lC5.map Prod.fst) = .ok m' ∧
      ∀ id, (match lookupA lC5 id with
             | none => m' id = none
             | some row =>
               m' id = some (if deadCond m' row = true
                             then { row with deleted := true } else row)) :=
  C5_dead_detection lC5 (by decide) (by decide) (by decide)

theorem setEquivStep_none {snaps : Nat → Option SnapRow} {eqv : Nat → Nat}
    {id : Nat} (h : snaps id = none) : setEquivStep snaps eqv id = .ok eqv := by
  simp only [setEquivStep, h]

theorem liveB_ne_zero {m : Nat → Option SnapRow} {c : Nat}
    (h : liveB m c = true) : c ≠ 0 := by
  intro h0
  subst h0
  simp [liveB] at h

/-- Embedding of `bch2_snapshots_set_equiv`: walk the snapshot rows in increasing id order
updating the cached `equiv` of each. -/
def bch2_snapshots_set_equiv (snaps : Nat → Option SnapRow) (ids : List Nat)
    (eqv : Nat → Nat) : Except Unit (Nat → Nat) :=
  walkE (setEquivStep snaps) eqv ids

theorem equivWalk_main (snaps : Nat → Option SnapRow) :
    ∀ (ids : List Nat) (eqv : Nat → Nat),
      List.Sorted (· < ·) ids →
      (∀ id, id ∈ ids → ∀ row, snaps id = some row →
        (row.child0 ≠ 0 → row.child0 < id) ∧
        (row.child1 ≠ 0 → row.child1 < id)) →
      (∀ id, id ∈ ids → ∀ row, snaps id = some row →
        (row.child0 ≠ 0 → (snaps row.child0).isSome) ∧
        (row.child1 ≠ 0 → (snaps row.child1).isSome)) →
      ∃ eqv', walkE (setEquivStep snaps) eqv ids = .ok eqv' ∧
        (∀ j, j ∉ ids → eqv' j = eqv j) ∧
        (∀ id, id ∈ ids → ∀ row, snaps id = some row →
          eqv' id =
            (if (liveB snaps row.child0).toNat +
                 (liveB snaps row.child1).toNat = 1
             then eqv' (if liveB snaps row.child1 = true then row.child1
                        else row.child0)
             else id)) := by
  intro ids
  induction ids with
  | nil =>
    intro eqv _ _ _
    exact ⟨eqv, rfl, fun j _ => rfl, fun id h => absurd h (List.not_mem_nil id)⟩
  | cons id rest ih =>
    intro eqv hsort H2 H3
    rw [List.sorted_cons] at hsort
    obtain ⟨hlt, hsort'⟩ := hsort
    have hidrest : id ∉ rest := fun h => lt_irrefl id (hlt id h)
    have hmemlt : ∀ c, c < id → c ∉ rest := fun c hc hmem =>
      absurd (lt_trans hc (hlt c hmem)) (lt_irrefl c)
    cases hmid : snaps id with
    | none =>
      obtain ⟨eqv', hwalk, hun, hper⟩ := ih eqv hsort'
        (fun i hi row hr => H2 i (List.mem_cons_of_mem _ hi) row hr)
        (fun i hi row hr => H3 i (List.mem_cons_of_mem _ hi) row hr)
      refine ⟨eqv', ?_, ?_, ?_⟩
      · rw [walkE_cons, setEquivStep_none hmid]
        exact hwalk
      · intro j hj
        exact hun j (fun hh => hj (List.mem_cons_of_mem _ hh))
      · intro i hi row hrow
        rcases List.mem_cons.mp hi with hi | hi
        · subst hi
          rw [hmid] at hrow
          cases hrow
        · exact hper i hi row hrow
    | some snap =>
      have hbound := H2 id (List.mem_cons_self id rest) snap hmid
      have hex := H3 id (List.mem_cons_self id rest) snap hmid
      have hstep := setEquivStep_ok snaps eqv id snap hmid hex.1 hex.2
      set v : Nat :=
        (if (liveB snaps snap.child0).toNat +
             (liveB snaps snap.child1).toNat = 1
         then eqv (if liveB snaps snap.child1 = true then snap.child1
                   else snap.child0)
         else id)
        with hv
      set eqv1 : Nat → Nat := fun j => if j = id then v else eqv j with heqv1
      have heqv1other : ∀ j, j ≠ id → eqv1 j = eqv j := by
        intro j hj
        rw [heqv1]
        simp [hj]
      obtain ⟨eqv', hwalk, hun, hper⟩ := ih eqv1 hsort'
        (fun i hi row hr => H2 i (List.mem_cons_of_mem _ hi) row hr)
        (fun i hi row hr => H3 i (List.mem_cons_of_mem _ hi) row hr)
      refine ⟨eqv', ?_, ?_, ?_⟩
      · rw [walkE_cons, hstep]
        exact hwalk
      · intro j hj
        rw [hun j (fun hh => hj (List.mem_cons_of_mem _ hh)),
          heqv1other j (fun hh => hj (hh ▸ List.mem_cons_self id rest))]
      · intro i hi row hrow
        rcases List.mem_cons.mp hi with hi | hi
        · subst hi
          rw [hmid] at hrow
          injection hrow with heq
          rw [← heq]
          have hid : eqv' i = v := by
            rw [hun i hidrest, heqv1]
            simp
          rw [hid, hv]
          by_cases hnr : (liveB snaps snap.child0).toNat +
              (liveB snaps snap.child1).toNat = 1
          · rw [if_pos hnr, if_pos hnr]
            have hlive_lt :
                (if liveB snaps snap.child1 = true then snap.child1
                 else snap.child0) < i := by
              by_cases hlc1 : liveB snaps snap.child1 = true
              · rw [if_pos hlc1]
                exact hbound.2 (liveB_ne_zero hlc1)
              · rw [if_neg hlc1]
                have hl0 : liveB snaps snap.child0 = true := by
                  cases h0 : liveB snaps snap.child0
                  · rw [Bool.not_eq_true] at hlc1
                    rw [h0, hlc1] at hnr
                    simp at hnr
                  · rfl
                exact hbound.1 (liveB_ne_zero hl0)
            rw [hun _ (hmemlt _ hlive_lt), heqv1other _ (Nat.ne_of_lt hlive_lt)]
          · rw [if_neg hnr, if_neg hnr]
        · exact hper i hi row hrow

/-- C6: after `bch2_snapshots_set_equiv` completes over a validated store,
every snapshot row's cached `equiv` equals the final cached `equiv` of its
unique live child (the child whose row exists and is not `DELETED`) when
exactly one such child exists, and equals the row's own id otherwise. -/
theorem C6_set_equiv (l : List (Nat × SnapRow)) (eqv : Nat → Nat)
    (hsort : List.Sorted (· < ·) (l.map Prod.fst))
    (hchild : ∀ p ∈ l, (p.2.child0 ≠ 0 → p.2.child0 < p.1) ∧
      (p.2.child1 ≠ 0 → p.2.child1 < p.1))
    (hex : ∀ p ∈ l, (p.2.child0 ≠ 0 → (lookupA l p.2.child0).isSome) ∧
      (p.2.child1 ≠ 0 → (lookupA l p.2.child1).isSome)) :
    ∃ eqv', bch2_snapshots_set_equiv (lookupA l) (l.map Prod.fst) eqv =
        .ok eqv' ∧
      ∀ id row, lookupA l id = some row →
        eqv' id =
          (if (liveB (lookupA l) row.child0).toNat +
               (liveB (lookupA l) row.child1).toNat = 1
           then eqv' (if liveB (lookupA l) row.child1 = true then row.child1
                      else row.child0)
           else id) := by
  obtain ⟨eqv', hwalk, _, hper⟩ := equivWalk_main (lookupA l) (l.map Prod.fst)
    eqv hsort
    (fun id _ row hrow => hchild (id, row) (lookupA_mem hrow))
    (fun id _ row hrow => hex (id, row) (lookupA_mem hrow))
  exact ⟨eqv', hwalk,
    fun id row hrow => hper id (lookupA_mem_keys hrow) row hrow⟩

/-- Store for the C6 witness: a live leaf 3 under node 5 whose only child is
3, so `equiv(5)` collapses to `equiv(3)`. -/
def lC6 : List (Nat × SnapRow) :=
  [(3, ⟨false, false, 5, 0, 0, 0⟩), (5, ⟨false, false, 0, 3, 0, 0⟩)]

/-- Witness for C6 on the concrete store above with the identity as the
starting cache. -/
theorem C6_witness :
    ∃ eqv', bch2_snapshots_set_equiv (lookupA lC6) (lC6.map Prod.fst)
        (fun j => j) = .ok eqv' ∧
      ∀ id row, lookupA lC6 id = some row →
        eqv' id =
          (if (liveB (lookupA lC6) row.child0).toNat +
               (liveB (lookupA lC6) row.child1).toNat = 1
           then eqv' (if liveB (lookupA lC6) row.child1 = true then row.child1
                      else row.child0)
           else id) :=
  C6_set_equiv lC6 (fun j => j) (by decide) (by decide) (by decide)

end Subvolume
